import Mathlib

/-!
Verification development for the wealth-forecast pipeline: the
return-assumption normalizer (gemini service), the forecast calculator,
and the forecast orchestrator (API route). All monetary and rate values
are modelled as rationals; the JavaScript `Number(x.toFixed(2))` step is
modelled as exact rounding to 2 decimal places (round half away from
zero, matching the `toFixed` specification).
-/

namespace WealthForecast

/-- Rounding to 2 decimal places, as `Number(value.toFixed(2))` does:
round half away from zero on the magnitude. -/
def round2 (q : ℚ) : ℚ :=
  if q < 0 then -((Rat.floor ((-q) * 100 + 1/2) : ℚ) / 100)
  else (Rat.floor (q * 100 + 1/2) : ℚ) / 100

/-- Embeds `sanitizeRate` from src/lib/gemini/service.ts:
`Math.max(-80, Math.min(120, Number(value.toFixed(2))))`, with
`Math.min`/`Math.max` written as conditionals. -/
def sanitizeRate (value : ℚ) : ℚ :=
  let rounded := round2 value
  let upper := if rounded ≤ 120 then rounded else 120
  if upper ≤ -80 then -80 else upper

/-- A rational that is representable with 2 decimal places. -/
def TwoDec (q : ℚ) : Prop := ∃ n : ℤ, q = (n : ℚ) / 100

/-- Contribution frequency enum from src/lib/types.ts. -/
inductive ContributionFrequency
  | monthly
  | yearly
  | one_time
deriving DecidableEq, Repr

/-- Investment type enum from src/lib/types.ts. -/
inductive InvestmentType
  | mutual_fund
  | stock
  | ppf
  | nps
  | fixed_deposit
  | crypto
  | other
deriving DecidableEq, Repr

/-- Confidence label enum from the assumption schema. -/
inductive Confidence
  | low
  | medium
  | high
deriving DecidableEq, Repr

/-- A cited source `{title, uri}` from the assumption schema. -/
structure Source where
  title : String
  uri : String
deriving DecidableEq, Repr

/-- InvestmentInput from src/lib/types.ts (fields used by the pipeline). -/
structure InvestmentInput where
  id : String
  type : InvestmentType
  name : String
  contributionFrequency : ContributionFrequency
  contributionAmount : ℚ
  initialAmount : ℚ
  sourceUrl : Option String := none
  institution : Option String := none
  ticker : Option String := none
  notes : Option String := none
deriving DecidableEq, Repr

/-- The result of `assumptionSchema.parse` on the provider's JSON:
`nullable().optional()` fields collapse to `Option`, and `sources`
(with its `.default([])`) is always a list after parsing. -/
structure ParsedAssumption where
  expectedAnnualReturnPct : ℚ
  conservativeAnnualReturnPct : ℚ
  aggressiveAnnualReturnPct : ℚ
  ytdReturnPct : Option ℚ := none
  oneYearReturnPct : Option ℚ := none
  threeYearCagrPct : Option ℚ := none
  fiveYearCagrPct : Option ℚ := none
  sinceInceptionCagrPct : Option ℚ := none
  historyAsOf : Option String := none
  confidence : Confidence
  rationale : String
  sources : List Source := []
deriving DecidableEq, Repr

/-- InvestmentAssumption from src/lib/types.ts. -/
structure InvestmentAssumption where
  investmentId : String
  expectedAnnualReturnPct : ℚ
  conservativeAnnualReturnPct : ℚ
  aggressiveAnnualReturnPct : ℚ
  ytdReturnPct : Option ℚ := none
  oneYearReturnPct : Option ℚ := none
  threeYearCagrPct : Option ℚ := none
  fiveYearCagrPct : Option ℚ := none
  sinceInceptionCagrPct : Option ℚ := none
  historyAsOf : Option String := none
  confidence : Confidence
  rationale : String
  sources : List Source
deriving DecidableEq, Repr

/-- Embeds `average` from src/lib/gemini/service.ts: `null` on the empty
list, otherwise sum divided by length. -/
def average (numbers : List ℚ) : Option ℚ :=
  if numbers = [] then none
  else some (numbers.foldl (· + ·) 0 / numbers.length)

/-- The `historicalSignals` array built in `fetchAssumptionsWithSearch`:
the present entries among 3y CAGR, 5y CAGR, since-inception CAGR and the
0.6-discounted 1-year return, in that order. -/
def historicalSignals (parsed : ParsedAssumption) : List ℚ :=
  [parsed.threeYearCagrPct,
   parsed.fiveYearCagrPct,
   parsed.sinceInceptionCagrPct,
   parsed.oneYearReturnPct.map (· * (6/10))].filterMap id

/-- The `historyAnchor` value from `fetchAssumptionsWithSearch`. -/
def historyAnchor (parsed : ParsedAssumption) : Option ℚ :=
  average (historicalSignals parsed)

/-- The `expected` value computed in `fetchAssumptionsWithSearch` before
ordering: the sanitized model expected rate when no anchor exists, else
the re-sanitized 0.55/0.45 blend with the history anchor. -/
def blendedExpected (parsed : ParsedAssumption) : ℚ :=
  match historyAnchor parsed with
  | none => sanitizeRate parsed.expectedAnnualReturnPct
  | some anchor =>
      sanitizeRate
        (sanitizeRate parsed.expectedAnnualReturnPct * (55/100) + anchor * (45/100))

/-- The pure tail of `fetchAssumptionsWithSearch` (src/lib/gemini/service.ts
lines 104-140): sanitize the three rates, blend the expected rate with the
history anchor, sort the three results ascending and reassign positionally,
pass the historical fields through, and cap sources at 5. -/
def normalizeAssumption (investment : InvestmentInput) (parsed : ParsedAssumption) :
    InvestmentAssumption :=
  let conservative := sanitizeRate parsed.conservativeAnnualReturnPct
  let expected := blendedExpected parsed
  let aggressive := sanitizeRate parsed.aggressiveAnnualReturnPct
  let sorted := List.insertionSort (· ≤ ·) [conservative, expected, aggressive]
  { investmentId := investment.id
    expectedAnnualReturnPct := sorted.getD 1 0
    conservativeAnnualReturnPct := sorted.getD 0 0
    aggressiveAnnualReturnPct := sorted.getD 2 0
    ytdReturnPct := parsed.ytdReturnPct
    oneYearReturnPct := parsed.oneYearReturnPct
    threeYearCagrPct := parsed.threeYearCagrPct
    fiveYearCagrPct := parsed.fiveYearCagrPct
    sinceInceptionCagrPct := parsed.sinceInceptionCagrPct
    historyAsOf := parsed.historyAsOf
    confidence := parsed.confidence
    rationale := parsed.rationale
    sources := parsed.sources.take 5 }

/-- A JSON value, as produced by `JSON.parse` on the provider's response
text (after `cleanJsonBlock` stripping). -/
inductive Json
  | num (q : ℚ)
  | str (s : String)
  | bool (b : Bool)
  | null
  | arr (items : List Json)
  | obj (fields : List (String × Json))

/-- Field lookup in a JSON object. -/
def getField (fields : List (String × Json)) (key : String) : Option Json :=
  (fields.find? (fun p => p.1 = key)).map (fun p => p.2)

/-- Embeds `z.number()`: a required numeric field. -/
def parseNumberField (j : Option Json) : Except String ℚ :=
  match j with
  | some (.num q) => .ok q
  | _ => .error "expected number"

/-- Embeds `z.number().nullable().optional()`: absent and `null` both
become `none`; any other non-numeric value is rejected. -/
def parseOptNumberField (j : Option Json) : Except String (Option ℚ) :=
  match j with
  | none => .ok none
  | some .null => .ok none
  | some (.num q) => .ok (some q)
  | some _ => .error "expected number or null"

/-- Embeds `z.string().nullable().optional()`. -/
def parseOptStringField (j : Option Json) : Except String (Option String) :=
  match j with
  | none => .ok none
  | some .null => .ok none
  | some (.str s) => .ok (some s)
  | some _ => .error "expected string or null"

/-- Embeds `z.enum(["low", "medium", "high"])`: a required field whose
value must be one of the three literals. -/
def parseConfidenceField (j : Option Json) : Except String Confidence :=
  match j with
  | some (.str s) =>
      if s = "low" then .ok Confidence.low
      else if s = "medium" then .ok Confidence.medium
      else if s = "high" then .ok Confidence.high
      else .error "expected one of low, medium, high"
  | _ => .error "expected one of low, medium, high"

/-- The string form of a confidence label. -/
def confidenceLabel : Confidence → String
  | .low => "low"
  | .medium => "medium"
  | .high => "high"

/-- Embeds `z.string()`: a required string field. -/
def parseStringField (j : Option Json) : Except String String :=
  match j with
  | some (.str s) => .ok s
  | _ => .error "expected string"

/-- Embeds `z.object({ title: z.string(), uri: z.string() })`. -/
def parseSource (j : Json) : Except String Source :=
  match j with
  | .obj fields => do
      let title ← parseStringField (getField fields "title")
      let uri ← parseStringField (getField fields "uri")
      .ok { title := title, uri := uri }
  | _ => .error "expected object"

/-- Embeds `z.array(z.object({title, uri})).default([])`: an absent field
defaults to the empty list, a present value must be an array of valid
source objects. -/
def parseSourcesField (j : Option Json) : Except String (List Source) :=
  match j with
  | none => .ok []
  | some (.arr items) => items.mapM parseSource
  | some _ => .error "expected array"

/-- A well-typed optional numeric field: absent, JSON null, or a number
matching the parsed value. -/
def optNumFieldOk (fields : List (String × Json)) (key : String)
    (o : Option ℚ) : Prop :=
  (getField fields key = none ∧ o = none) ∨
  (getField fields key = some Json.null ∧ o = none) ∨
  (∃ q, getField fields key = some (.num q) ∧ o = some q)

/-- A well-typed optional string field: absent, JSON null, or a string
matching the parsed value. -/
def optStrFieldOk (fields : List (String × Json)) (key : String)
    (o : Option String) : Prop :=
  (getField fields key = none ∧ o = none) ∨
  (getField fields key = some Json.null ∧ o = none) ∨
  (∃ t, getField fields key = some (.str t) ∧ o = some t)

/-- A well-typed cited-source element: an object carrying string-valued
title and uri fields. -/
def sourceItemOk (item : Json) : Prop :=
  ∃ fs, item = .obj fs ∧ (∃ t, getField fs "title" = some (.str t)) ∧
    (∃ u, getField fs "uri" = some (.str u))

/-- A well-typed sources field: absent (defaulting to the empty list) or an
array all of whose elements are well-typed source objects. -/
def sourcesFieldOk (fields : List (String × Json)) (ss : List Source) : Prop :=
  (getField fields "sources" = none ∧ ss = []) ∨
  (∃ items, getField fields "sources" = some (.arr items) ∧
    ∀ item ∈ items, sourceItemOk item)

/-- Embeds `assumptionSchema.parse` (src/lib/gemini/service.ts lines 6-19):
the whole payload is rejected unless every field validates. -/
def assumptionSchemaParse (j : Json) : Except String ParsedAssumption :=
  match j with
  | .obj fields => do
      let expected ← parseNumberField (getField fields "expectedAnnualReturnPct")
      let conservative ← parseNumberField (getField fields "conservativeAnnualReturnPct")
      let aggressive ← parseNumberField (getField fields "aggressiveAnnualReturnPct")
      let ytd ← parseOptNumberField (getField fields "ytdReturnPct")
      let oneYear ← parseOptNumberField (getField fields "oneYearReturnPct")
      let threeYear ← parseOptNumberField (getField fields "threeYearCagrPct")
      let fiveYear ← parseOptNumberField (getField fields "fiveYearCagrPct")
      let sinceInception ← parseOptNumberField (getField fields "sinceInceptionCagrPct")
      let historyAsOf ← parseOptStringField (getField fields "historyAsOf")
      let confidence ← parseConfidenceField (getField fields "confidence")
      let rationale ← parseStringField (getField fields "rationale")
      let sources ← parseSourcesField (getField fields "sources")
      .ok { expectedAnnualReturnPct := expected
            conservativeAnnualReturnPct := conservative
            aggressiveAnnualReturnPct := aggressive
            ytdReturnPct := ytd
            oneYearReturnPct := oneYear
            threeYearCagrPct := threeYear
            fiveYearCagrPct := fiveYear
            sinceInceptionCagrPct := sinceInception
            historyAsOf := historyAsOf
            confidence := confidence
            rationale := rationale
            sources := sources }
  | _ => .error "expected object"

/-- Embeds `fetchAssumptionsWithSearch` (src/lib/gemini/service.ts lines
93-140) from the point where the provider's response text has been parsed
into a JSON value: schema validation failure yields the wrapping error
that names the investment; success yields the normalized assumption. -/
def fetchAssumptionsWithSearch (investment : InvestmentInput) (raw : Json) :
    Except String InvestmentAssumption :=
  match assumptionSchemaParse raw with
  | .error e =>
      .error ("Gemini returned invalid assumption payload for " ++
        investment.name ++ ": " ++ e)
  | .ok parsed => .ok (normalizeAssumption investment parsed)

/-- ForecastRequest from src/lib/types.ts. -/
structure ForecastRequest where
  years : ℕ
  currency : String
  investments : List InvestmentInput
deriving Repr

/-- YearlyProjection from src/lib/types.ts. -/
structure YearlyProjection where
  year : ℕ
  conservativeValue : ℚ
  expectedValue : ℚ
  aggressiveValue : ℚ
deriving DecidableEq, Repr

/-- InvestmentProjection from src/lib/types.ts. -/
structure InvestmentProjection where
  investmentId : String
  investmentName : String
  yearly : List YearlyProjection
deriving DecidableEq, Repr

/-- ForecastResponse from src/lib/types.ts; `generatedAt` is the
timestamp taken at construction, passed in explicitly here. -/
structure ForecastResponse where
  generatedAt : String
  currency : String
  assumptions : List InvestmentAssumption
  projections : List InvestmentProjection
  totalProjection : List YearlyProjection
deriving Repr

/-- Embeds `annualContribution` from src/lib/forecast/calculator.ts. -/
def annualContribution (input : InvestmentInput) : ℚ :=
  match input.contributionFrequency with
  | .monthly => input.contributionAmount * 12
  | .yearly => input.contributionAmount
  | .one_time => 0

/-- The loop body of `projectScenario`: `runningValue` is carried at full
precision across years; only the pushed (recorded) values are rounded. -/
def projectLoop (runningValue annualRate contribution : ℚ) : ℕ → List ℚ
  | 0 => []
  | n + 1 =>
      let next := runningValue * (1 + annualRate) + contribution
      round2 next :: projectLoop next annualRate contribution n

/-- Embeds `projectScenario` from src/lib/forecast/calculator.ts. -/
def projectScenario (investment : InvestmentInput) (annualReturnPct : ℚ)
    (years : ℕ) : List ℚ :=
  let oneTimeSeed :=
    if investment.contributionFrequency = .one_time then investment.contributionAmount
    else 0
  projectLoop (investment.initialAmount + oneTimeSeed) (annualReturnPct / 100)
    (annualContribution investment) years

/-- The unrounded balance after `n` years of the recurrence
`balance = balance * (1 + rate) + contribution` starting from `start`. -/
def rawBalance (start annualRate contribution : ℚ) : ℕ → ℚ
  | 0 => start
  | n + 1 => rawBalance start annualRate contribution n * (1 + annualRate) + contribution

/-- The starting balance of `projectScenario`: initial amount plus the
one-time contribution seed. -/
def startingBalance (investment : InvestmentInput) : ℚ :=
  investment.initialAmount +
    (if investment.contributionFrequency = .one_time then investment.contributionAmount
     else 0)

/-- One investment's projection rows, as built inside `buildForecast`
from the three per-scenario series. -/
def projectOne (investment : InvestmentInput) (assumption : InvestmentAssumption)
    (years : ℕ) : InvestmentProjection :=
  let conservative := projectScenario investment assumption.conservativeAnnualReturnPct years
  let expected := projectScenario investment assumption.expectedAnnualReturnPct years
  let aggressive := projectScenario investment assumption.aggressiveAnnualReturnPct years
  { investmentId := investment.id
    investmentName := investment.name
    yearly := (List.range years).map (fun i =>
      { year := i + 1
        conservativeValue := conservative.getD i 0
        expectedValue := expected.getD i 0
        aggressiveValue := aggressive.getD i 0 }) }

/-- The `request.investments.map` of `buildForecast`, with the thrown
`Missing assumption for investment` error made explicit: the map is
left to right, and the first investment with no matching assumption
aborts the whole computation. -/
def projectAll (assumptions : List InvestmentAssumption) (years : ℕ) :
    List InvestmentInput → Except String (List InvestmentProjection)
  | [] => .ok []
  | investment :: rest =>
      match assumptions.find? (fun item => item.investmentId = investment.id) with
      | none => .error ("Missing assumption for investment: " ++ investment.id)
      | some assumption =>
          match projectAll assumptions years rest with
          | .error e => .error e
          | .ok tail => .ok (projectOne investment assumption years :: tail)

/-- One step of the accumulator fold of `buildForecast`'s `totalProjection`. -/
def totalsStep (i : ℕ) (acc : ℚ × ℚ × ℚ) (projection : InvestmentProjection) :
    ℚ × ℚ × ℚ :=
  let yearData := projection.yearly.getD i ⟨0, 0, 0, 0⟩
  (acc.1 + yearData.conservativeValue,
   acc.2.1 + yearData.expectedValue,
   acc.2.2 + yearData.aggressiveValue)

/-- The accumulator fold of `buildForecast`'s `totalProjection`: componentwise
sums of the year-`i` row of every projection, starting from zero. -/
def totalsAt (projections : List InvestmentProjection) (i : ℕ) : ℚ × ℚ × ℚ :=
  projections.foldl (totalsStep i) (0, 0, 0)

/-- The `totalProjection` array of `buildForecast` (calculator.ts lines
83-101): per year, the rounded componentwise sum across investments. -/
def totalProjectionOf (years : ℕ) (projections : List InvestmentProjection) :
    List YearlyProjection :=
  (List.range years).map (fun i =>
    let totals := totalsAt projections i
    { year := i + 1
      conservativeValue := round2 totals.1
      expectedValue := round2 totals.2.1
      aggressiveValue := round2 totals.2.2 })

/-- Embeds `buildForecast` from src/lib/forecast/calculator.ts; `now` is
the `new Date().toISOString()` timestamp. -/
def buildForecast (now : String) (request : ForecastRequest)
    (assumptions : List InvestmentAssumption) : Except String ForecastResponse :=
  match projectAll assumptions request.years request.investments with
  | .error e => .error e
  | .ok projections =>
      .ok { generatedAt := now
            currency := request.currency
            assumptions := assumptions
            projections := projections
            totalProjection := totalProjectionOf request.years projections }

/-- The per-investment checks of the route's `investmentSchema` on the
typed investment value: non-empty id, name of at least 2 characters,
non-negative amounts. The enum fields are enforced by typing. -/
def validInvestment (i : InvestmentInput) : Bool :=
  1 ≤ i.id.length && 2 ≤ i.name.length && 0 ≤ i.contributionAmount && 0 ≤ i.initialAmount

/-- The route's `requestSchema` checks on the typed request: years is an
integer in 1..50, currency non-empty, investments non-empty and each
individually valid. -/
def validRequest (r : ForecastRequest) : Bool :=
  1 ≤ r.years && r.years ≤ 50 && 1 ≤ r.currency.length &&
    1 ≤ r.investments.length && r.investments.all validInvestment

/-- The `hasPositiveAmount` check of the forecast route. -/
def hasPositiveAmount (r : ForecastRequest) : Bool :=
  r.investments.any (fun inv => 0 < inv.initialAmount || 0 < inv.contributionAmount)

/-- Fan-in of the per-investment research results, as `Promise.all`: any
failed request fails the whole collection. -/
def promiseAll {α : Type} : List (Except String α) → Except String (List α)
  | [] => .ok []
  | .error e :: _ => .error e
  | .ok a :: rest =>
      match promiseAll rest with
      | .error e => .error e
      | .ok tail => .ok (a :: tail)

/-- Embeds the body of `POST` in src/app/api/forecast/route.ts after
authentication: schema validation, the positive-amount check, the
`Promise.all` fan-out of assumption requests (`fetch` gives each
investment's research outcome), then `buildForecast`. Every thrown error
becomes an `Except.error`. -/
def POST (now : String) (request : ForecastRequest)
    (fetch : InvestmentInput → Except String InvestmentAssumption) :
    Except String ForecastResponse :=
  if ¬ validRequest request then .error "invalid request"
  else if ¬ hasPositiveAmount request then
    .error "At least one investment must include a non-zero amount."
  else
    match promiseAll (request.investments.map fetch) with
    | .error e => .error e
    | .ok assumptions => buildForecast now request assumptions

lemma ratFloor_eq_intFloor (q : ℚ) : Rat.floor q = ⌊q⌋ := by
  rw [Rat.floor_def', Rat.floor_def]

lemma twoDec_round2 (q : ℚ) : TwoDec (round2 q) := by
  unfold round2
  split_ifs with h
  · exact ⟨-Rat.floor ((-q) * 100 + 1/2), by push_cast; ring⟩
  · exact ⟨Rat.floor (q * 100 + 1/2), rfl⟩

lemma twoDec_sanitizeRate (v : ℚ) : TwoDec (sanitizeRate v) := by
  simp only [sanitizeRate]
  split_ifs with h1 h2
  · exact ⟨-8000, by norm_num⟩
  · exact twoDec_round2 v
  · exact ⟨-8000, by norm_num⟩
  · exact ⟨12000, by norm_num⟩

lemma sanitizeRate_lower (v : ℚ) : -80 ≤ sanitizeRate v := by
  simp only [sanitizeRate]
  split_ifs <;> linarith

lemma sanitizeRate_upper (v : ℚ) : sanitizeRate v ≤ 120 := by
  simp only [sanitizeRate]
  split_ifs <;> linarith

lemma blendedExpected_eq_sanitizeRate (parsed : ParsedAssumption) :
    ∃ v, blendedExpected parsed = sanitizeRate v := by
  rcases h : historyAnchor parsed with _ | anchor
  · exact ⟨parsed.expectedAnnualReturnPct, by simp [blendedExpected, h]⟩
  · exact ⟨sanitizeRate parsed.expectedAnnualReturnPct * (55/100) + anchor * (45/100),
      by simp [blendedExpected, h]⟩

lemma sort3_spec (c e a : ℚ) : ∃ x y z,
    List.insertionSort (fun p q : ℚ => p ≤ q) [c, e, a] = [x, y, z] ∧
      x ≤ y ∧ y ≤ z ∧ x ∈ [c, e, a] ∧ y ∈ [c, e, a] ∧ z ∈ [c, e, a] := by
  obtain ⟨x, y, z, hs⟩ := List.length_eq_three.mp
    (List.length_insertionSort (fun p q : ℚ => p ≤ q) [c, e, a])
  have hsorted := List.sorted_insertionSort (fun p q : ℚ => p ≤ q) [c, e, a]
  rw [hs] at hsorted
  have hxy : x ≤ y := List.rel_of_sorted_cons hsorted y (by simp)
  have hyz : y ≤ z :=
    List.rel_of_sorted_cons (List.sorted_cons.mp hsorted).2 z (by simp)
  have hperm := List.perm_insertionSort (fun p q : ℚ => p ≤ q) [c, e, a]
  rw [hs] at hperm
  exact ⟨x, y, z, hs, hxy, hyz,
    hperm.mem_iff.mp (by simp), hperm.mem_iff.mp (by simp), hperm.mem_iff.mp (by simp)⟩

lemma rawBalance_succ_shift (s r c : ℚ) (n : ℕ) :
    rawBalance (s * (1 + r) + c) r c n = rawBalance s r c (n + 1) := by
  induction n with
  | zero => rfl
  | succ n ih => simp only [rawBalance, ih]

lemma projectLoop_eq_map_rawBalance (r c : ℚ) (y : ℕ) :
    ∀ s : ℚ, projectLoop s r c y =
      (List.range y).map (fun n => round2 (rawBalance s r c (n + 1))) := by
  induction y with
  | zero => intro s; rfl
  | succ y ih =>
      intro s
      simp only [projectLoop]
      rw [ih (s * (1 + r) + c), List.range_succ_eq_map, List.map_cons, List.map_map]
      refine congrArg₂ List.cons ?_ ?_
      · simp [rawBalance]
      · apply List.map_congr_left
        intro a ha
        simp only [Function.comp, rawBalance]
        rw [rawBalance_succ_shift]
        simp [rawBalance]

lemma projectScenario_eq_map (inv : InvestmentInput) (pct : ℚ) (years : ℕ) :
    projectScenario inv pct years = (List.range years).map (fun n =>
      round2 (rawBalance (startingBalance inv) (pct / 100)
        (annualContribution inv) (n + 1))) := by
  simp only [projectScenario, startingBalance]
  exact projectLoop_eq_map_rawBalance _ _ years _

lemma projectAll_ok_of_found (A : List InvestmentAssumption) (y : ℕ)
    (l : List InvestmentInput)
    (h : ∀ inv ∈ l, ∃ a, A.find? (fun item => item.investmentId = inv.id) = some a) :
    ∃ ps, projectAll A y l = .ok ps := by
  induction l with
  | nil => exact ⟨[], rfl⟩
  | cons inv rest ih =>
      obtain ⟨a, ha⟩ := h inv (by simp)
      obtain ⟨ps, hps⟩ := ih (fun i hi => h i (by simp [hi]))
      exact ⟨projectOne inv a y :: ps, by simp only [projectAll, ha, hps]⟩

lemma projectAll_error_of_missing (A : List InvestmentAssumption) (y : ℕ)
    (l : List InvestmentInput)
    (h : ∃ inv ∈ l, A.find? (fun item => item.investmentId = inv.id) = none) :
    ∃ i, i ∈ l ∧ A.find? (fun item => item.investmentId = i.id) = none ∧
      projectAll A y l = .error ("Missing assumption for investment: " ++ i.id) := by
  induction l with
  | nil => obtain ⟨inv, hmem, _⟩ := h; cases hmem
  | cons inv rest ih =>
      cases hfind : A.find? (fun item => item.investmentId = inv.id) with
      | none => exact ⟨inv, by simp, hfind, by simp only [projectAll, hfind]⟩
      | some a =>
          obtain ⟨i0, hmem0, hnone0⟩ := h
          rcases List.mem_cons.mp hmem0 with rfl | hmem0
          · exact absurd hnone0 (by simp [hfind])
          · obtain ⟨i, hmem, hnone, herr⟩ := ih ⟨i0, hmem0, hnone0⟩
            exact ⟨i, by simp [hmem], hnone, by simp only [projectAll, hfind, herr]⟩

lemma projectAll_congr (A B : List InvestmentAssumption) (y : ℕ)
    (l : List InvestmentInput)
    (h : ∀ inv ∈ l, A.find? (fun item => item.investmentId = inv.id) =
      B.find? (fun item => item.investmentId = inv.id)) :
    projectAll A y l = projectAll B y l := by
  induction l with
  | nil => rfl
  | cons inv rest ih =>
      have hmain := h inv (by simp)
      have hrest := ih (fun i hi => h i (by simp [hi]))
      simp only [projectAll, hmain, hrest]

lemma find?_append_of_right_none {α : Type} (p : α → Bool) (A S : List α)
    (h : S.find? p = none) : (A ++ S).find? p = A.find? p := by
  induction A with
  | nil => simpa using h
  | cons a t ih =>
      by_cases hp : p a
      · simp [List.find?_cons_of_pos _ hp]
      · simp [List.find?_cons_of_neg _ hp, ih]

lemma foldl_totalsStep (i : ℕ) (ps : List InvestmentProjection) :
    ∀ acc : ℚ × ℚ × ℚ, ps.foldl (totalsStep i) acc =
      (acc.1 + (ps.map (fun p => (p.yearly.getD i ⟨0, 0, 0, 0⟩).conservativeValue)).sum,
       acc.2.1 + (ps.map (fun p => (p.yearly.getD i ⟨0, 0, 0, 0⟩).expectedValue)).sum,
       acc.2.2 + (ps.map (fun p => (p.yearly.getD i ⟨0, 0, 0, 0⟩).aggressiveValue)).sum) := by
  induction ps with
  | nil => intro acc; simp
  | cons p t ih =>
      intro acc
      simp only [List.foldl_cons, List.map_cons, List.sum_cons, ih, totalsStep]
      refine Prod.ext ?_ (Prod.ext ?_ ?_) <;> simp <;> ring

lemma totalsAt_eq (ps : List InvestmentProjection) (i : ℕ) :
    totalsAt ps i =
      ((ps.map (fun p => (p.yearly.getD i ⟨0, 0, 0, 0⟩).conservativeValue)).sum,
       (ps.map (fun p => (p.yearly.getD i ⟨0, 0, 0, 0⟩).expectedValue)).sum,
       (ps.map (fun p => (p.yearly.getD i ⟨0, 0, 0, 0⟩).aggressiveValue)).sum) := by
  rw [totalsAt, foldl_totalsStep]
  simp

lemma totalProjectionOf_getD (y : ℕ) (ps : List InvestmentProjection) (i : ℕ)
    (h : i < y) : (totalProjectionOf y ps).getD i ⟨0, 0, 0, 0⟩ =
      { year := i + 1
        conservativeValue :=
          round2 ((ps.map (fun p => (p.yearly.getD i ⟨0, 0, 0, 0⟩).conservativeValue)).sum)
        expectedValue :=
          round2 ((ps.map (fun p => (p.yearly.getD i ⟨0, 0, 0, 0⟩).expectedValue)).sum)
        aggressiveValue :=
          round2 ((ps.map (fun p => (p.yearly.getD i ⟨0, 0, 0, 0⟩).aggressiveValue)).sum) } := by
  rw [totalProjectionOf, List.getD_eq_getElem?_getD, List.getElem?_map,
    List.getElem?_range h]
  simp [totalsAt_eq]

lemma promiseAll_error_of_mem {α : Type} (rs : List (Except String α)) (e : String)
    (h : Except.error e ∈ rs) : ∃ m, promiseAll rs = .error m := by
  induction rs with
  | nil => cases h
  | cons r t ih =>
      cases r with
      | error e0 => exact ⟨e0, rfl⟩
      | ok a =>
          rcases List.mem_cons.mp h with hbad | hmem
          · cases hbad
          · obtain ⟨m, hm⟩ := ih hmem
            exact ⟨m, by simp only [promiseAll, hm]⟩

lemma except_bind_ok {α β : Type} {x : Except String α} {f : α → Except String β}
    {b : β} (h : (x >>= f) = .ok b) : ∃ a, x = .ok a ∧ f a = .ok b := by
  cases x with
  | error e => simp [Bind.bind, Except.bind] at h
  | ok a => exact ⟨a, rfl, by simpa [Bind.bind, Except.bind] using h⟩

lemma parseNumberField_ok {j : Option Json} {q : ℚ}
    (h : parseNumberField j = .ok q) : j = some (.num q) := by
  cases j with
  | none => exact absurd h (by simp [parseNumberField])
  | some v =>
      cases v with
      | num q0 =>
          obtain rfl : q0 = q := by simpa [parseNumberField] using h
          rfl
      | str s => exact absurd h (by simp [parseNumberField])
      | bool b => exact absurd h (by simp [parseNumberField])
      | null => exact absurd h (by simp [parseNumberField])
      | arr xs => exact absurd h (by simp [parseNumberField])
      | obj fs => exact absurd h (by simp [parseNumberField])

lemma parseStringField_ok {j : Option Json} {s : String}
    (h : parseStringField j = .ok s) : j = some (.str s) := by
  cases j with
  | none => exact absurd h (by simp [parseStringField])
  | some v =>
      cases v with
      | num q0 => exact absurd h (by simp [parseStringField])
      | str s0 =>
          obtain rfl : s0 = s := by simpa [parseStringField] using h
          rfl
      | bool b => exact absurd h (by simp [parseStringField])
      | null => exact absurd h (by simp [parseStringField])
      | arr xs => exact absurd h (by simp [parseStringField])
      | obj fs => exact absurd h (by simp [parseStringField])

lemma parseConfidenceField_ok {j : Option Json} {conf : Confidence}
    (h : parseConfidenceField j = .ok conf) : j = some (.str (confidenceLabel conf)) := by
  cases j with
  | none => exact absurd h (by simp [parseConfidenceField])
  | some v =>
      cases v with
      | num q0 => exact absurd h (by simp [parseConfidenceField])
      | str s0 =>
          by_cases h1 : s0 = "low"
          · subst h1
            obtain rfl : Confidence.low = conf := by
              simpa [parseConfidenceField] using h
            rfl
          · by_cases h2 : s0 = "medium"
            · subst h2
              obtain rfl : Confidence.medium = conf := by
                simpa [parseConfidenceField] using h
              rfl
            · by_cases h3 : s0 = "high"
              · subst h3
                obtain rfl : Confidence.high = conf := by
                  simpa [parseConfidenceField, h2] using h
                rfl
              · exact absurd h (by simp [parseConfidenceField, h1, h2, h3])
      | bool b => exact absurd h (by simp [parseConfidenceField])
      | null => exact absurd h (by simp [parseConfidenceField])
      | arr xs => exact absurd h (by simp [parseConfidenceField])
      | obj fs => exact absurd h (by simp [parseConfidenceField])

lemma parseOptNumberField_ok {j : Option Json} {o : Option ℚ}
    (h : parseOptNumberField j = .ok o) :
    (j = none ∧ o = none) ∨ (j = some Json.null ∧ o = none) ∨
      ∃ q, j = some (.num q) ∧ o = some q := by
  cases j with
  | none => exact Or.inl ⟨rfl, (Except.ok.inj h).symm⟩
  | some v =>
      cases v with
      | num q => exact Or.inr (Or.inr ⟨q, rfl, (Except.ok.inj h).symm⟩)
      | null => exact Or.inr (Or.inl ⟨rfl, (Except.ok.inj h).symm⟩)
      | str t => exact absurd h (by simp [parseOptNumberField])
      | bool b => exact absurd h (by simp [parseOptNumberField])
      | arr xs => exact absurd h (by simp [parseOptNumberField])
      | obj fs => exact absurd h (by simp [parseOptNumberField])

lemma parseOptStringField_ok {j : Option Json} {o : Option String}
    (h : parseOptStringField j = .ok o) :
    (j = none ∧ o = none) ∨ (j = some Json.null ∧ o = none) ∨
      ∃ t, j = some (.str t) ∧ o = some t := by
  cases j with
  | none => exact Or.inl ⟨rfl, (Except.ok.inj h).symm⟩
  | some v =>
      cases v with
      | num q => exact absurd h (by simp [parseOptStringField])
      | null => exact Or.inr (Or.inl ⟨rfl, (Except.ok.inj h).symm⟩)
      | str t => exact Or.inr (Or.inr ⟨t, rfl, (Except.ok.inj h).symm⟩)
      | bool b => exact absurd h (by simp [parseOptStringField])
      | arr xs => exact absurd h (by simp [parseOptStringField])
      | obj fs => exact absurd h (by simp [parseOptStringField])

lemma parseSource_ok {item : Json} {s : Source} (h : parseSource item = .ok s) :
    ∃ fs, item = .obj fs ∧ getField fs "title" = some (.str s.title) ∧
      getField fs "uri" = some (.str s.uri) := by
  cases item with
  | obj fs =>
      refine ⟨fs, rfl, ?_⟩
      simp only [parseSource] at h
      obtain ⟨t, ht, h⟩ := except_bind_ok h
      obtain ⟨u, hu, h⟩ := except_bind_ok h
      obtain rfl : (⟨t, u⟩ : Source) = s := by simpa using h
      exact ⟨parseStringField_ok ht, parseStringField_ok hu⟩
  | num q => exact absurd h (by simp [parseSource])
  | str t => exact absurd h (by simp [parseSource])
  | bool b => exact absurd h (by simp [parseSource])
  | null => exact absurd h (by simp [parseSource])
  | arr xs => exact absurd h (by simp [parseSource])

lemma mapM_parseSource_ok {items : List Json} {ss : List Source}
    (h : items.mapM parseSource = .ok ss) :
    ∀ item ∈ items, ∃ s, parseSource item = .ok s := by
  induction items generalizing ss with
  | nil => intro item him; cases him
  | cons a t ih =>
      rw [List.mapM_cons] at h
      obtain ⟨s0, hs0, h⟩ := except_bind_ok h
      obtain ⟨ts, hts, h⟩ := except_bind_ok h
      intro item him
      rcases List.mem_cons.mp him with rfl | him
      · exact ⟨s0, hs0⟩
      · exact ih hts item him

lemma parseSourcesField_ok {j : Option Json} {ss : List Source}
    (h : parseSourcesField j = .ok ss) :
    (j = none ∧ ss = []) ∨
      ∃ items, j = some (.arr items) ∧ ∀ item ∈ items, sourceItemOk item := by
  cases j with
  | none => exact Or.inl ⟨rfl, (Except.ok.inj h).symm⟩
  | some v =>
      cases v with
      | arr items =>
          refine Or.inr ⟨items, rfl, ?_⟩
          intro item him
          obtain ⟨s, hs⟩ :=
            mapM_parseSource_ok (by simpa [parseSourcesField] using h) item him
          obtain ⟨fs, rfl, ht, hu⟩ := parseSource_ok hs
          exact ⟨fs, rfl, ⟨s.title, ht⟩, ⟨s.uri, hu⟩⟩
      | num q => exact absurd h (by simp [parseSourcesField])
      | str t => exact absurd h (by simp [parseSourcesField])
      | bool b => exact absurd h (by simp [parseSourcesField])
      | null => exact absurd h (by simp [parseSourcesField])
      | obj fs => exact absurd h (by simp [parseSourcesField])

lemma assumptionSchemaParse_ok {j : Json} {p : ParsedAssumption}
    (h : assumptionSchemaParse j = .ok p) : ∃ fields, j = .obj fields ∧
    getField fields "expectedAnnualReturnPct" = some (.num p.expectedAnnualReturnPct) ∧
    getField fields "conservativeAnnualReturnPct" =
      some (.num p.conservativeAnnualReturnPct) ∧
    getField fields "aggressiveAnnualReturnPct" =
      some (.num p.aggressiveAnnualReturnPct) ∧
    getField fields "confidence" = some (.str (confidenceLabel p.confidence)) ∧
    getField fields "rationale" = some (.str p.rationale) ∧
    optNumFieldOk fields "ytdReturnPct" p.ytdReturnPct ∧
    optNumFieldOk fields "oneYearReturnPct" p.oneYearReturnPct ∧
    optNumFieldOk fields "threeYearCagrPct" p.threeYearCagrPct ∧
    optNumFieldOk fields "fiveYearCagrPct" p.fiveYearCagrPct ∧
    optNumFieldOk fields "sinceInceptionCagrPct" p.sinceInceptionCagrPct ∧
    optStrFieldOk fields "historyAsOf" p.historyAsOf ∧
    sourcesFieldOk fields p.sources := by
  cases j with
  | num q0 => exact absurd h (by simp [assumptionSchemaParse])
  | str s0 => exact absurd h (by simp [assumptionSchemaParse])
  | bool b => exact absurd h (by simp [assumptionSchemaParse])
  | null => exact absurd h (by simp [assumptionSchemaParse])
  | arr xs => exact absurd h (by simp [assumptionSchemaParse])
  | obj fields =>
      refine ⟨fields, rfl, ?_⟩
      simp only [assumptionSchemaParse] at h
      obtain ⟨vE, hE, h⟩ := except_bind_ok h
      obtain ⟨vC, hC, h⟩ := except_bind_ok h
      obtain ⟨vA, hA, h⟩ := except_bind_ok h
      obtain ⟨vY, hY, h⟩ := except_bind_ok h
      obtain ⟨v1, h1, h⟩ := except_bind_ok h
      obtain ⟨v3, h3, h⟩ := except_bind_ok h
      obtain ⟨v5, h5, h⟩ := except_bind_ok h
      obtain ⟨vI, hI, h⟩ := except_bind_ok h
      obtain ⟨vH, hH, h⟩ := except_bind_ok h
      obtain ⟨vConf, hConf, h⟩ := except_bind_ok h
      obtain ⟨vR, hR, h⟩ := except_bind_ok h
      obtain ⟨vS, hS, h⟩ := except_bind_ok h
      obtain rfl : (⟨vE, vC, vA, vY, v1, v3, v5, vI, vH, vConf, vR, vS⟩ :
          ParsedAssumption) = p := by
        simpa using h
      refine ⟨parseNumberField_ok hE, parseNumberField_ok hC, parseNumberField_ok hA,
        parseConfidenceField_ok hConf, parseStringField_ok hR,
        parseOptNumberField_ok hY, parseOptNumberField_ok h1,
        parseOptNumberField_ok h3, parseOptNumberField_ok h5,
        parseOptNumberField_ok hI, parseOptStringField_ok hH, ?_⟩
      rcases parseSourcesField_ok hS with ⟨hnone, hnil⟩ | ⟨items, hitems, hall⟩
      · exact Or.inl ⟨hnone, hnil⟩
      · exact Or.inr ⟨items, hitems, hall⟩

/-- Fixture: a one-time investment matching the spec's compounding example. -/
def sampleInvestment : InvestmentInput :=
  { id := "inv-1", type := .mutual_fund, name := "Sample Fund",
    contributionFrequency := .one_time, contributionAmount := 500,
    initialAmount := 1000 }

/-- Fixture: an investment whose full-precision balance exposes the rounding
drift between recorded and carried balances. -/
def driftInvestment : InvestmentInput :=
  { id := "inv-d", type := .stock, name := "Drift Stock",
    contributionFrequency := .one_time, contributionAmount := 0,
    initialAmount := 13/100 }

/-- Fixture payload whose raw aggressive rate is below its conservative rate. -/
def swappedPayload : ParsedAssumption :=
  { expectedAnnualReturnPct := 7, conservativeAnnualReturnPct := 10,
    aggressiveAnnualReturnPct := 2, confidence := .low, rationale := "swap" }

/-- Fixture payload matching the spec's blending example. -/
def blendPayload : ParsedAssumption :=
  { expectedAnnualReturnPct := 10, conservativeAnnualReturnPct := 5,
    aggressiveAnnualReturnPct := 12, threeYearCagrPct := some 8,
    fiveYearCagrPct := some 6, confidence := .high, rationale := "blend" }

/-- Fixture source carrying a fragment identifier. -/
def fragmentSource : Source :=
  { title := "Example", uri := "https://example.com/a#frag" }

/-- Fixture payload whose source list holds the same URL twice. -/
def dupPayload : ParsedAssumption :=
  { expectedAnnualReturnPct := 5, conservativeAnnualReturnPct := 5,
    aggressiveAnnualReturnPct := 5, confidence := .low, rationale := "dup",
    sources := [fragmentSource, fragmentSource] }

/-- C1: for every investment and validated payload the normalized assumption
satisfies conservative ≤ expected ≤ aggressive, each of the three rates lies
in [-80, 120] and is a 2-decimal value; sanitizing a raw rate of 500 yields
120 and -999 yields -80; and on a payload whose raw aggressive rate is below
its conservative rate the sort-based positional reassignment restores the
ordering. -/
theorem spec_C1 (investment : InvestmentInput) (parsed : ParsedAssumption) :
    ((normalizeAssumption investment parsed).conservativeAnnualReturnPct ≤
        (normalizeAssumption investment parsed).expectedAnnualReturnPct ∧
      (normalizeAssumption investment parsed).expectedAnnualReturnPct ≤
        (normalizeAssumption investment parsed).aggressiveAnnualReturnPct) ∧
    (-80 ≤ (normalizeAssumption investment parsed).conservativeAnnualReturnPct ∧
      (normalizeAssumption investment parsed).conservativeAnnualReturnPct ≤ 120 ∧
      -80 ≤ (normalizeAssumption investment parsed).expectedAnnualReturnPct ∧
      (normalizeAssumption investment parsed).expectedAnnualReturnPct ≤ 120 ∧
      -80 ≤ (normalizeAssumption investment parsed).aggressiveAnnualReturnPct ∧
      (normalizeAssumption investment parsed).aggressiveAnnualReturnPct ≤ 120) ∧
    (TwoDec (normalizeAssumption investment parsed).conservativeAnnualReturnPct ∧
      TwoDec (normalizeAssumption investment parsed).expectedAnnualReturnPct ∧
      TwoDec (normalizeAssumption investment parsed).aggressiveAnnualReturnPct) ∧
    (sanitizeRate 500 = 120 ∧ sanitizeRate (-999) = -80) ∧
    ((normalizeAssumption investment swappedPayload).conservativeAnnualReturnPct = 2 ∧
      (normalizeAssumption investment swappedPayload).expectedAnnualReturnPct = 7 ∧
      (normalizeAssumption investment swappedPayload).aggressiveAnnualReturnPct = 10) := by
  obtain ⟨x, y, z, hs, hxy, hyz, hxm, hym, hzm⟩ :=
    sort3_spec (sanitizeRate parsed.conservativeAnnualReturnPct)
      (blendedExpected parsed) (sanitizeRate parsed.aggressiveAnnualReturnPct)
  have hc : (normalizeAssumption investment parsed).conservativeAnnualReturnPct = x := by
    simp only [normalizeAssumption]
    rw [hs]
    rfl
  have he : (normalizeAssumption investment parsed).expectedAnnualReturnPct = y := by
    simp only [normalizeAssumption]
    rw [hs]
    rfl
  have ha : (normalizeAssumption investment parsed).aggressiveAnnualReturnPct = z := by
    simp only [normalizeAssumption]
    rw [hs]
    rfl
  have hprop : ∀ w, w ∈ [sanitizeRate parsed.conservativeAnnualReturnPct,
      blendedExpected parsed, sanitizeRate parsed.aggressiveAnnualReturnPct] →
      -80 ≤ w ∧ w ≤ 120 ∧ TwoDec w := by
    intro w hw
    have : ∃ v, w = sanitizeRate v := by
      rcases List.mem_cons.mp hw with rfl | hw
      · exact ⟨parsed.conservativeAnnualReturnPct, rfl⟩
      rcases List.mem_cons.mp hw with rfl | hw
      · exact blendedExpected_eq_sanitizeRate parsed
      rcases List.mem_cons.mp hw with rfl | hw
      · exact ⟨parsed.aggressiveAnnualReturnPct, rfl⟩
      · cases hw
    obtain ⟨v, rfl⟩ := this
    exact ⟨sanitizeRate_lower v, sanitizeRate_upper v, twoDec_sanitizeRate v⟩
  obtain ⟨hx1, hx2, hx3⟩ := hprop x hxm
  obtain ⟨hy1, hy2, hy3⟩ := hprop y hym
  obtain ⟨hz1, hz2, hz3⟩ := hprop z hzm
  refine ⟨⟨by rw [hc, he]; exact hxy, by rw [he, ha]; exact hyz⟩,
    ⟨by rw [hc]; exact hx1, by rw [hc]; exact hx2, by rw [he]; exact hy1,
      by rw [he]; exact hy2, by rw [ha]; exact hz1, by rw [ha]; exact hz2⟩,
    ⟨by rw [hc]; exact hx3, by rw [he]; exact hy3, by rw [ha]; exact hz3⟩,
    ⟨by norm_num [sanitizeRate, round2, Rat.floor],
      by norm_num [sanitizeRate, round2, Rat.floor]⟩, ?_⟩
  norm_num [normalizeAssumption, blendedExpected, historyAnchor, historicalSignals,
    average, swappedPayload, List.filterMap_cons, List.filterMap_nil, sanitizeRate,
    round2, Rat.floor, List.insertionSort, List.orderedInsert]

/-- C2: the annual contribution is contributionAmount × 12 for monthly,
contributionAmount for yearly and 0 for one_time; the starting balance is
initialAmount plus the one-time contribution (else initialAmount); for each
year 1..horizon in order, the recorded value is the 2-decimal rounding of
the running balance × (1 + rate/100) + annual contribution; and the spec's
concrete one_time example yields 1650.00 then 1815.00. -/
theorem spec_C2 :
    (∀ inv : InvestmentInput, inv.contributionFrequency = .monthly →
      annualContribution inv = inv.contributionAmount * 12) ∧
    (∀ inv : InvestmentInput, inv.contributionFrequency = .yearly →
      annualContribution inv = inv.contributionAmount) ∧
    (∀ inv : InvestmentInput, inv.contributionFrequency = .one_time →
      annualContribution inv = 0 ∧
        startingBalance inv = inv.initialAmount + inv.contributionAmount) ∧
    (∀ inv : InvestmentInput, inv.contributionFrequency ≠ .one_time →
      startingBalance inv = inv.initialAmount) ∧
    (∀ (inv : InvestmentInput) (pct : ℚ) (years i : ℕ), i < years →
      (projectScenario inv pct years).getD i 0 =
        round2 (rawBalance (startingBalance inv) (pct / 100)
            (annualContribution inv) i * (1 + pct / 100) +
          annualContribution inv)) ∧
    projectScenario sampleInvestment 10 2 = [1650, 1815] := by
  refine ⟨?_, ?_, ?_, ?_, ?_, ?_⟩
  · intro inv h; simp [annualContribution, h]
  · intro inv h; simp [annualContribution, h]
  · intro inv h; exact ⟨by simp [annualContribution, h], by simp [startingBalance, h]⟩
  · intro inv h; simp [startingBalance, h]
  · intro inv pct years i hi
    rw [projectScenario_eq_map, List.getD_eq_getElem?_getD, List.getElem?_map,
      List.getElem?_range hi]
    simp [rawBalance]
  · norm_num [projectScenario, projectLoop, annualContribution, sampleInvestment,
      round2, Rat.floor]

/-- C4 as stated is false: the recurrence carries the running balance at full
precision, so a recorded year value need not equal the rounded step applied
to the prior recorded value. With initialAmount 0.13 at 10% the code records
0.14 then 0.16, while the rounded-balance recurrence would record 0.15. -/
theorem spec_C4_counterexample :
    projectScenario driftInvestment 10 2 = [14/100, 16/100] ∧
    round2 ((14/100) * (1 + 10/100) + annualContribution driftInvestment) = 15/100 ∧
    (16/100 : ℚ) ≠ 15/100 := by
  refine ⟨?_, ?_, by norm_num⟩
  · norm_num [projectScenario, projectLoop, annualContribution, driftInvestment,
      round2, Rat.floor]
  · norm_num [annualContribution, driftInvestment, round2, Rat.floor]

/-- C4 amended: each recorded year value is the 2-decimal rounding of the
full-precision balance, which is carried unrounded across years by the
recurrence `balance = balance × (1 + rate/100) + contribution`; year N's
recorded value is a function of the unrounded year N−1 balance, not of the
recorded (rounded) one. -/
theorem spec_C4 (inv : InvestmentInput) (pct : ℚ) (years : ℕ) :
    projectScenario inv pct years = (List.range years).map (fun n =>
      round2 (rawBalance (startingBalance inv) (pct / 100)
        (annualContribution inv) (n + 1))) ∧
    (∀ n : ℕ, rawBalance (startingBalance inv) (pct / 100)
        (annualContribution inv) (n + 1) =
      rawBalance (startingBalance inv) (pct / 100) (annualContribution inv) n *
        (1 + pct / 100) + annualContribution inv) :=
  ⟨projectScenario_eq_map inv pct years, fun _ => rfl⟩

/-- C5 as stated is false: the source list is not sanitized. A payload citing
the same fragment-bearing URL twice, for an investment with no sourceUrl,
comes back verbatim: the fragment survives and the duplicate remains. -/
theorem spec_C5_counterexample :
    (normalizeAssumption sampleInvestment dupPayload).sources =
      [fragmentSource, fragmentSource] ∧
    ¬ (normalizeAssumption sampleInvestment dupPayload).sources.Nodup := by
  constructor
  · simp [normalizeAssumption, dupPayload]
  · simp [normalizeAssumption, dupPayload]

/-- C5 amended: the returned source list is exactly the first 5 entries of
the payload's cited sources, verbatim — no fragment stripping, no redirect
filtering, no prepending of the investment's own sourceUrl, and no
deduplication — so only the cap of at most 5 entries holds. -/
theorem spec_C5 (investment : InvestmentInput) (parsed : ParsedAssumption) :
    (normalizeAssumption investment parsed).sources = parsed.sources.take 5 ∧
    (normalizeAssumption investment parsed).sources.length ≤ 5 := by
  constructor
  · simp [normalizeAssumption]
  · simp only [normalizeAssumption]
    exact List.length_take_le 5 parsed.sources

/-- C3: the history anchor exists exactly when one of the four historical
signals is present; with no anchor the expected rate passes through as the
sanitized model rate; with an anchor the expected rate is the re-sanitized
0.55/0.45 blend; the anchor is the arithmetic mean of the present signals
(1-year discounted by 0.6); and the spec's example (expected 10, threeYear 8,
fiveYear 6) gives anchor 7 and blended expected 8.65. -/
theorem spec_C3 :
    (∀ parsed : ParsedAssumption, (historyAnchor parsed = none ↔
        parsed.threeYearCagrPct = none ∧ parsed.fiveYearCagrPct = none ∧
        parsed.sinceInceptionCagrPct = none ∧ parsed.oneYearReturnPct = none)) ∧
    (∀ parsed : ParsedAssumption, historyAnchor parsed = none →
        blendedExpected parsed = sanitizeRate parsed.expectedAnnualReturnPct) ∧
    (∀ (parsed : ParsedAssumption) (anchor : ℚ), historyAnchor parsed = some anchor →
        blendedExpected parsed =
          sanitizeRate (sanitizeRate parsed.expectedAnnualReturnPct * (55/100) +
            anchor * (45/100))) ∧
    (∀ (parsed : ParsedAssumption) (anchor : ℚ), historyAnchor parsed = some anchor →
        historicalSignals parsed ≠ [] ∧
        anchor = (historicalSignals parsed).sum / (historicalSignals parsed).length) ∧
    (∀ (parsed : ParsedAssumption) (x y : ℚ), parsed.threeYearCagrPct = some x →
        parsed.fiveYearCagrPct = some y → parsed.sinceInceptionCagrPct = none →
        parsed.oneYearReturnPct = none → historyAnchor parsed = some ((x + y) / 2)) ∧
    (∀ (parsed : ParsedAssumption) (u : ℚ), parsed.oneYearReturnPct = some u →
        u * (6/10) ∈ historicalSignals parsed) ∧
    (historyAnchor blendPayload = some 7 ∧ blendedExpected blendPayload = 173/20) := by
  refine ⟨?_, ?_, ?_, ?_, ?_, ?_, ?_, ?_⟩
  · intro parsed
    cases h3 : parsed.threeYearCagrPct <;> cases h5 : parsed.fiveYearCagrPct <;>
      cases hi : parsed.sinceInceptionCagrPct <;> cases h1 : parsed.oneYearReturnPct <;>
      simp [historyAnchor, historicalSignals, average, h3, h5, hi, h1,
        List.filterMap_cons, List.filterMap_nil]
  · intro parsed h; simp [blendedExpected, h]
  · intro parsed anchor h; simp [blendedExpected, h]
  · intro parsed anchor h
    by_cases hnil : historicalSignals parsed = []
    · simp [historyAnchor, average, hnil] at h
    · refine ⟨hnil, ?_⟩
      have := h
      simp only [historyAnchor, average, if_neg hnil] at this
      rw [List.sum_eq_foldl]
      exact (Option.some.inj this).symm
  · intro parsed x y h3 h5 hi h1
    simp [historyAnchor, historicalSignals, average, h3, h5, hi, h1,
      List.filterMap_cons, List.filterMap_nil]
    try ring
  · intro parsed u h1
    cases h3 : parsed.threeYearCagrPct <;> cases h5 : parsed.fiveYearCagrPct <;>
      cases hi : parsed.sinceInceptionCagrPct <;>
      simp [historicalSignals, h1, h3, h5, hi, List.filterMap_cons, List.filterMap_nil]
  · norm_num [historyAnchor, historicalSignals, average, blendPayload,
      List.filterMap_cons, List.filterMap_nil]
    exact fun h => absurd h (by simp)
  · have h : historyAnchor blendPayload = some 7 := by
      norm_num [historyAnchor, historicalSignals, average, blendPayload,
        List.filterMap_cons, List.filterMap_nil]
      exact fun h => absurd h (by simp)
    rw [blendedExpected, h]
    norm_num [blendPayload, sanitizeRate, round2, Rat.floor]

/-- Fixture: the first investment of the two-investment portfolio example. -/
def invA : InvestmentInput :=
  { id := "a", type := .mutual_fund, name := "Fund A",
    contributionFrequency := .one_time, contributionAmount := 500,
    initialAmount := 1000 }

/-- Fixture: the second investment of the two-investment portfolio example. -/
def invB : InvestmentInput :=
  { id := "b", type := .stock, name := "Stock B",
    contributionFrequency := .one_time, contributionAmount := 0,
    initialAmount := 1200 }

/-- Fixture assumption for `invA`: all three scenario rates 10%. -/
def assumpA : InvestmentAssumption :=
  { investmentId := "a", expectedAnnualReturnPct := 10,
    conservativeAnnualReturnPct := 10, aggressiveAnnualReturnPct := 10,
    confidence := .medium, rationale := "", sources := [] }

/-- Fixture assumption for `invB`: all three scenario rates 0%. -/
def assumpB : InvestmentAssumption :=
  { investmentId := "b", expectedAnnualReturnPct := 0,
    conservativeAnnualReturnPct := 0, aggressiveAnnualReturnPct := 0,
    confidence := .medium, rationale := "", sources := [] }

/-- Fixture: a one-year, two-investment forecast request. -/
def portfolioRequest : ForecastRequest :=
  { years := 1, currency := "INR", investments := [invA, invB] }

/-- Fixture: the assumptions matching `portfolioRequest`. -/
def portfolioAssumptions : List InvestmentAssumption := [assumpA, assumpB]

/-- C6: for every successful forecast and every year index, the portfolio
total row is the componentwise sum of the recorded per-investment values for
that year, each component rounded to 2 decimals after summing; concretely,
investments with expected year-1 values 1650.00 and 1200.00 total 2850.00. -/
theorem spec_C6 :
    (∀ (now : String) (req : ForecastRequest) (A : List InvestmentAssumption)
        (r : ForecastResponse) (i : ℕ), buildForecast now req A = .ok r →
      i < req.years →
      r.totalProjection.getD i ⟨0, 0, 0, 0⟩ = ⟨i + 1,
        round2 ((r.projections.map
          (fun p => (p.yearly.getD i ⟨0, 0, 0, 0⟩).conservativeValue)).sum),
        round2 ((r.projections.map
          (fun p => (p.yearly.getD i ⟨0, 0, 0, 0⟩).expectedValue)).sum),
        round2 ((r.projections.map
          (fun p => (p.yearly.getD i ⟨0, 0, 0, 0⟩).aggressiveValue)).sum)⟩) ∧
    (∃ r, buildForecast "2026-01-01T00:00:00.000Z" portfolioRequest
        portfolioAssumptions = .ok r ∧
      r.projections.map (fun p => (p.yearly.getD 0 ⟨0, 0, 0, 0⟩).expectedValue) =
        [1650, 1200] ∧
      (r.totalProjection.getD 0 ⟨0, 0, 0, 0⟩).expectedValue = 2850) := by
  constructor
  · intro now req A r i hok hi
    cases hp : projectAll A req.years req.investments with
    | error e => rw [buildForecast, hp] at hok; cases hok
    | ok ps =>
        rw [buildForecast, hp] at hok
        obtain rfl : _ = r := Except.ok.inj hok
        exact totalProjectionOf_getD req.years ps i hi
  · have hfA : List.find? (fun item => item.investmentId = invA.id)
        [assumpA, assumpB] = some assumpA := by
      simp [invA, assumpA]
    have hfB : List.find? (fun item => item.investmentId = invB.id)
        [assumpA, assumpB] = some assumpB := by
      simp [invB, assumpA, assumpB]
    have hsA : projectScenario invA 10 1 = [1650] := by
      norm_num [projectScenario, projectLoop, annualContribution, invA,
        round2, Rat.floor]
    have hsB : projectScenario invB 0 1 = [1200] := by
      norm_num [projectScenario, projectLoop, annualContribution, invB,
        round2, Rat.floor]
    have hyA : (projectOne invA assumpA 1).yearly = [⟨1, 1650, 1650, 1650⟩] := by
      simp [projectOne, assumpA, hsA, List.range_succ]
    have hyB : (projectOne invB assumpB 1).yearly = [⟨1, 1200, 1200, 1200⟩] := by
      simp [projectOne, assumpB, hsB, List.range_succ]
    refine ⟨{ generatedAt := "2026-01-01T00:00:00.000Z", currency := "INR",
              assumptions := portfolioAssumptions,
              projections := [projectOne invA assumpA 1, projectOne invB assumpB 1],
              totalProjection := totalProjectionOf 1
                [projectOne invA assumpA 1, projectOne invB assumpB 1] },
      ?_, ?_, ?_⟩
    · simp only [buildForecast, portfolioRequest, portfolioAssumptions, projectAll,
        hfA, hfB]
    · simp [hyA, hyB]
    · simp only [totalProjectionOf, List.range_succ, List.range_zero, List.nil_append,
        List.map_cons, List.map_nil, List.getD_cons_zero]
      rw [totalsAt_eq]
      simp [hyA, hyB]
      norm_num [round2, Rat.floor]

/-- C7: invoking the calculator with an investment whose id matches no
assumption fails with an error naming a matchless investment's id, and
produces no result — no silent skip, no zero-filled row. -/
theorem spec_C7 (now : String) (req : ForecastRequest)
    (A : List InvestmentAssumption) (inv : InvestmentInput)
    (hmem : inv ∈ req.investments)
    (hnone : ∀ a ∈ A, a.investmentId ≠ inv.id) :
    ∃ i, i ∈ req.investments ∧ (∀ a ∈ A, a.investmentId ≠ i.id) ∧
      buildForecast now req A =
        .error ("Missing assumption for investment: " ++ i.id) := by
  have hfind : A.find? (fun item => item.investmentId = inv.id) = none :=
    List.find?_eq_none.mpr (fun a ha => by simpa using hnone a ha)
  obtain ⟨i, himem, hifind, herr⟩ :=
    projectAll_error_of_missing A req.years req.investments ⟨inv, hmem, hfind⟩
  refine ⟨i, himem, ?_, ?_⟩
  · intro a ha
    have := List.find?_eq_none.mp hifind a ha
    simpa using this
  · rw [buildForecast, herr]

/-- Fixture: a single-investment request with no matching assumption. -/
def missingReq : ForecastRequest :=
  { years := 1, currency := "INR", investments := [invA] }

/-- Witness for C7 at a concrete request whose only investment has no
assumption: the calculator fails with the naming error. -/
theorem spec_C7_witness :
    ∃ i, i ∈ missingReq.investments ∧
      (∀ a ∈ ([] : List InvestmentAssumption), a.investmentId ≠ i.id) ∧
      buildForecast "t" missingReq [] =
        .error ("Missing assumption for investment: " ++ i.id) :=
  spec_C7 "t" missingReq [] invA (by simp [missingReq]) (by simp)

/-- Fixture: an empty-portfolio request. -/
def emptyReq : ForecastRequest :=
  { years := 1, currency := "INR", investments := [] }

/-- Fixture: an investment with zero initial and contribution amounts. -/
def zeroInv : InvestmentInput :=
  { id := "z", type := .other, name := "Zero Fund",
    contributionFrequency := .monthly, contributionAmount := 0,
    initialAmount := 0 }

/-- Fixture: a request whose only investment carries no money at all. -/
def zeroReq : ForecastRequest :=
  { years := 1, currency := "INR", investments := [zeroInv] }

/-- Fixture: a research fetch that always fails. -/
def fetchFail : InvestmentInput → Except String InvestmentAssumption :=
  fun _ => .error "research failed"

/-- Fixture: a research fetch returning a fixed assumption per investment. -/
def fetchConst : InvestmentInput → Except String InvestmentAssumption :=
  fun inv => .ok
    { investmentId := inv.id
      expectedAnnualReturnPct := 10
      conservativeAnnualReturnPct := 10
      aggressiveAnnualReturnPct := 10
      confidence := .medium
      rationale := ""
      sources := [] }

/-- C8: the orchestrator fails before any research call when the investment
list is empty (its result is an error and does not depend on the fetch
function), likewise when every investment has zero initial and contribution
amounts; and when any single investment's research fails, the whole run
fails — no partial forecast is ever produced. -/
theorem spec_C8 :
    (∀ (now : String) (req : ForecastRequest)
        (f g : InvestmentInput → Except String InvestmentAssumption),
      req.investments = [] →
        POST now req f = .error "invalid request" ∧ POST now req f = POST now req g) ∧
    (∀ (now : String) (req : ForecastRequest)
        (f g : InvestmentInput → Except String InvestmentAssumption),
      (∀ inv ∈ req.investments, ¬(0 < inv.initialAmount ∨ 0 < inv.contributionAmount)) →
        (∃ m, POST now req f = .error m) ∧ POST now req f = POST now req g) ∧
    (∀ (now : String) (req : ForecastRequest)
        (f : InvestmentInput → Except String InvestmentAssumption),
      (∃ inv ∈ req.investments, ∃ e, f inv = .error e) →
        ∃ m, POST now req f = .error m) := by
  refine ⟨?_, ?_, ?_⟩
  · intro now req f g hempty
    have hval : ¬ validRequest req := by
      simp [validRequest, hempty]
    constructor <;> simp [POST, hval]
  · intro now req f g hzero
    by_cases hval : validRequest req
    · have hpos : ¬ hasPositiveAmount req := by
        simp only [hasPositiveAmount, List.any_eq_true, not_exists]
        intro inv
        intro hmem
        exact absurd (by simpa using hmem.2) (hzero inv hmem.1)
      constructor
      · exact ⟨"At least one investment must include a non-zero amount.",
          by simp [POST, hval, hpos]⟩
      · simp [POST, hval, hpos]
    · constructor
      · exact ⟨"invalid request", by simp [POST, hval]⟩
      · simp [POST, hval]
  · intro now req f hfail
    by_cases hval : validRequest req
    · by_cases hpos : hasPositiveAmount req
      · obtain ⟨inv, hmem, e, he⟩ := hfail
        have hm : Except.error e ∈ req.investments.map f :=
          List.mem_map.mpr ⟨inv, hmem, he⟩
        obtain ⟨m, hprom⟩ := promiseAll_error_of_mem (req.investments.map f) e hm
        exact ⟨m, by simp [POST, hval, hpos, hprom]⟩
      · exact ⟨"At least one investment must include a non-zero amount.",
          by simp [POST, hval, hpos]⟩
    · exact ⟨"invalid request", by simp [POST, hval]⟩

/-- Witness for C8 at concrete inputs: the empty request fails identically
under two different fetches; the zero-amount request fails with some error;
and a valid two-investment request whose fetch always fails yields an
overall error. -/
theorem spec_C8_witness :
    (POST "t" emptyReq fetchFail = .error "invalid request" ∧
      POST "t" emptyReq fetchFail = POST "t" emptyReq fetchConst) ∧
    (∃ m, POST "t" zeroReq fetchFail = .error m) ∧
    (∃ m, POST "t" portfolioRequest fetchFail = .error m) :=
  ⟨spec_C8.1 "t" emptyReq fetchFail fetchConst rfl,
    (spec_C8.2.1 "t" zeroReq fetchFail fetchConst
      (by intro inv hmem; simp [zeroReq] at hmem; simp [hmem, zeroInv])).1,
    spec_C8.2.2 "t" portfolioRequest fetchFail
      ⟨invA, by simp [portfolioRequest], "research failed", rfl⟩⟩

/-- C9 amended: a successful schema parse pins every field the schema reads
— the three rates are present numeric fields, confidence is one of the
three literal strings, rationale is a present string, each historical field
is absent, null or numeric (historyAsOf absent, null or a string), and the
sources field is absent or an array of objects with string title and uri —
so a payload missing or mistyping any of those is rejected whole; and every
schema-validation error surfaces as an error naming the investment. (A
missing sources list is NOT rejected: it defaults to the empty list — see
the counterexample.) -/
theorem spec_C9 :
    (∀ (j : Json) (p : ParsedAssumption), assumptionSchemaParse j = .ok p →
      ∃ fields, j = .obj fields ∧
        getField fields "expectedAnnualReturnPct" =
          some (.num p.expectedAnnualReturnPct) ∧
        getField fields "conservativeAnnualReturnPct" =
          some (.num p.conservativeAnnualReturnPct) ∧
        getField fields "aggressiveAnnualReturnPct" =
          some (.num p.aggressiveAnnualReturnPct) ∧
        getField fields "confidence" = some (.str (confidenceLabel p.confidence)) ∧
        (confidenceLabel p.confidence = "low" ∨
          confidenceLabel p.confidence = "medium" ∨
          confidenceLabel p.confidence = "high") ∧
        getField fields "rationale" = some (.str p.rationale) ∧
        optNumFieldOk fields "ytdReturnPct" p.ytdReturnPct ∧
        optNumFieldOk fields "oneYearReturnPct" p.oneYearReturnPct ∧
        optNumFieldOk fields "threeYearCagrPct" p.threeYearCagrPct ∧
        optNumFieldOk fields "fiveYearCagrPct" p.fiveYearCagrPct ∧
        optNumFieldOk fields "sinceInceptionCagrPct" p.sinceInceptionCagrPct ∧
        optStrFieldOk fields "historyAsOf" p.historyAsOf ∧
        sourcesFieldOk fields p.sources) ∧
    (∀ (inv : InvestmentInput) (j : Json) (e : String),
      assumptionSchemaParse j = .error e →
      fetchAssumptionsWithSearch inv j =
        .error ("Gemini returned invalid assumption payload for " ++
          inv.name ++ ": " ++ e)) := by
  constructor
  · intro j p h
    obtain ⟨fields, hj, h1, h2, h3, h4, h5, hy, ho, ht3, ht5, hti, hh, hsrc⟩ :=
      assumptionSchemaParse_ok h
    refine ⟨fields, hj, h1, h2, h3, h4, ?_, h5, hy, ho, ht3, ht5, hti, hh, hsrc⟩
    cases p.confidence <;> simp [confidenceLabel]
  · intro inv j e he
    rw [fetchAssumptionsWithSearch, he]

/-- Fixture: a payload JSON with all required fields but no sources list. -/
def noSourcesJson : Json := .obj [
  ("expectedAnnualReturnPct", .num 7), ("conservativeAnnualReturnPct", .num 5),
  ("aggressiveAnnualReturnPct", .num 9), ("confidence", .str "low"),
  ("rationale", .str "ok")]

/-- Fixture: the parse result of `noSourcesJson`. -/
def noSourcesParsed : ParsedAssumption :=
  { expectedAnnualReturnPct := 7, conservativeAnnualReturnPct := 5,
    aggressiveAnnualReturnPct := 9, confidence := .low, rationale := "ok",
    sources := [] }

/-- C9 as stated is false on one point: a payload missing the sources list
entirely is not rejected — the schema's `.default([])` fills in the empty
list and the fetch succeeds. -/
theorem spec_C9_counterexample :
    assumptionSchemaParse noSourcesJson = .ok noSourcesParsed ∧
    ∃ a, fetchAssumptionsWithSearch sampleInvestment noSourcesJson = .ok a := by
  have h : assumptionSchemaParse noSourcesJson = .ok noSourcesParsed := by
    simp [assumptionSchemaParse, noSourcesJson, noSourcesParsed, getField,
      parseNumberField, parseOptNumberField, parseOptStringField,
      parseConfidenceField, parseStringField, parseSourcesField,
      List.find?, Bind.bind, Except.bind]
  exact ⟨h, ⟨_, by rw [fetchAssumptionsWithSearch, h]⟩⟩

/-- Fixture: an empty JSON object, missing every required field. -/
def emptyJson : Json := .obj []

/-- Witness for C9: the successful-parse characterization instantiated on
`noSourcesJson`, and the investment-naming error on an empty object. -/
theorem spec_C9_witness :
    (∃ fields, noSourcesJson = .obj fields ∧
      getField fields "expectedAnnualReturnPct" =
        some (.num noSourcesParsed.expectedAnnualReturnPct) ∧
      getField fields "conservativeAnnualReturnPct" =
        some (.num noSourcesParsed.conservativeAnnualReturnPct) ∧
      getField fields "aggressiveAnnualReturnPct" =
        some (.num noSourcesParsed.aggressiveAnnualReturnPct) ∧
      getField fields "confidence" =
        some (.str (confidenceLabel noSourcesParsed.confidence)) ∧
      (confidenceLabel noSourcesParsed.confidence = "low" ∨
        confidenceLabel noSourcesParsed.confidence = "medium" ∨
        confidenceLabel noSourcesParsed.confidence = "high") ∧
      getField fields "rationale" = some (.str noSourcesParsed.rationale) ∧
      optNumFieldOk fields "ytdReturnPct" noSourcesParsed.ytdReturnPct ∧
      optNumFieldOk fields "oneYearReturnPct" noSourcesParsed.oneYearReturnPct ∧
      optNumFieldOk fields "threeYearCagrPct" noSourcesParsed.threeYearCagrPct ∧
      optNumFieldOk fields "fiveYearCagrPct" noSourcesParsed.fiveYearCagrPct ∧
      optNumFieldOk fields "sinceInceptionCagrPct"
        noSourcesParsed.sinceInceptionCagrPct ∧
      optStrFieldOk fields "historyAsOf" noSourcesParsed.historyAsOf ∧
      sourcesFieldOk fields noSourcesParsed.sources) ∧
    fetchAssumptionsWithSearch sampleInvestment emptyJson =
      .error ("Gemini returned invalid assumption payload for " ++
        sampleInvestment.name ++ ": " ++ "expected number") := by
  constructor
  · apply spec_C9.1 noSourcesJson noSourcesParsed
    simp [assumptionSchemaParse, noSourcesJson, noSourcesParsed, getField,
      parseNumberField, parseOptNumberField, parseOptStringField,
      parseConfidenceField, parseStringField, parseSourcesField,
      List.find?, Bind.bind, Except.bind]
  · apply spec_C9.2 sampleInvestment emptyJson
    simp [assumptionSchemaParse, emptyJson, getField, parseNumberField,
      List.find?, Bind.bind, Except.bind]

/-- C10: the calculator succeeds when every investment has a matching
assumption even if the assumption list carries surplus entries matching no
investment; the result's assumptions field passes the whole input list
through verbatim; and appending surplus assumptions changes no projection. -/
theorem spec_C10 :
    (∀ (now : String) (req : ForecastRequest) (A : List InvestmentAssumption),
      (∀ inv ∈ req.investments, ∃ a ∈ A, a.investmentId = inv.id) →
      ∃ r, buildForecast now req A = .ok r ∧ r.assumptions = A) ∧
    (∀ (now : String) (req : ForecastRequest) (A S : List InvestmentAssumption),
      (∀ s ∈ S, ∀ inv ∈ req.investments, s.investmentId ≠ inv.id) →
      Except.map ForecastResponse.projections (buildForecast now req (A ++ S)) =
        Except.map ForecastResponse.projections (buildForecast now req A)) := by
  constructor
  · intro now req A hall
    have hfound : ∀ inv ∈ req.investments, ∃ a,
        A.find? (fun item => item.investmentId = inv.id) = some a := by
      intro inv hmem
      obtain ⟨a, haA, hid⟩ := hall inv hmem
      have hsome : (A.find? (fun item => item.investmentId = inv.id)).isSome :=
        List.find?_isSome.mpr ⟨a, haA, by simpa using hid⟩
      exact Option.isSome_iff_exists.mp hsome
    obtain ⟨ps, hps⟩ := projectAll_ok_of_found A req.years req.investments hfound
    refine ⟨{ generatedAt := now
              currency := req.currency
              assumptions := A
              projections := ps
              totalProjection := totalProjectionOf req.years ps }, ?_, rfl⟩
    rw [buildForecast, hps]
  · intro now req A S hS
    have hcongr : projectAll (A ++ S) req.years req.investments =
        projectAll A req.years req.investments := by
      apply projectAll_congr
      intro inv hmem
      apply find?_append_of_right_none
      exact List.find?_eq_none.mpr (fun s hs => by simpa using hS s hs inv hmem)
    cases hp : projectAll A req.years req.investments with
    | error e => simp only [buildForecast, hcongr, hp]
    | ok ps =>
        simp only [buildForecast, hcongr, hp]
        simp [Except.map]

/-- Fixture: an assumption whose investmentId matches no investment. -/
def surplusAssumption : InvestmentAssumption :=
  { investmentId := "zz", expectedAnnualReturnPct := 1,
    conservativeAnnualReturnPct := 1, aggressiveAnnualReturnPct := 1,
    confidence := .low, rationale := "", sources := [] }

/-- Witness for C10: the two-investment portfolio succeeds with its
assumptions passed through verbatim, and appending a surplus assumption
leaves the projections unchanged. -/
theorem spec_C10_witness :
    (∃ r, buildForecast "t" portfolioRequest portfolioAssumptions = .ok r ∧
      r.assumptions = portfolioAssumptions) ∧
    Except.map ForecastResponse.projections
        (buildForecast "t" portfolioRequest
          (portfolioAssumptions ++ [surplusAssumption])) =
      Except.map ForecastResponse.projections
        (buildForecast "t" portfolioRequest portfolioAssumptions) := by
  constructor
  · apply spec_C10.1 "t" portfolioRequest portfolioAssumptions
    intro inv hmem
    rcases List.mem_cons.mp hmem with rfl | hmem
    · exact ⟨assumpA, by simp [portfolioAssumptions], by simp [assumpA, invA]⟩
    rcases List.mem_cons.mp hmem with rfl | hmem
    · exact ⟨assumpB, by simp [portfolioAssumptions], by simp [assumpB, invB]⟩
    · cases hmem
  · apply spec_C10.2 "t" portfolioRequest portfolioAssumptions [surplusAssumption]
    intro s hs inv hmem
    have hs' : s = surplusAssumption := by simpa using hs
    subst hs'
    rcases List.mem_cons.mp hmem with rfl | hmem
    · simp [surplusAssumption, invA]
    rcases List.mem_cons.mp hmem with rfl | hmem
    · simp [surplusAssumption, invB]
    · cases hmem

/-- Fixture: a monthly-contribution investment. -/
def monthlyInvestment : InvestmentInput :=
  { id := "inv-m", type := .stock, name := "Monthly Stock",
    contributionFrequency := .monthly, contributionAmount := 100,
    initialAmount := 0 }

/-- Fixture: a yearly-contribution investment. -/
def yearlyInvestment : InvestmentInput :=
  { id := "inv-y", type := .ppf, name := "Yearly PPF",
    contributionFrequency := .yearly, contributionAmount := 100,
    initialAmount := 50 }

/-- Witness for C2: the contribution and starting-balance rules applied to
concrete monthly, yearly and one_time investments, and the year-1 and
year-2 recorded values of the spec's example via the recurrence. -/
theorem spec_C2_witness :
    annualContribution monthlyInvestment = monthlyInvestment.contributionAmount * 12 ∧
    annualContribution yearlyInvestment = yearlyInvestment.contributionAmount ∧
    (annualContribution sampleInvestment = 0 ∧
      startingBalance sampleInvestment =
        sampleInvestment.initialAmount + sampleInvestment.contributionAmount) ∧
    startingBalance monthlyInvestment = monthlyInvestment.initialAmount ∧
    (projectScenario sampleInvestment 10 2).getD 0 0 =
      round2 (rawBalance (startingBalance sampleInvestment) (10/100)
          (annualContribution sampleInvestment) 0 * (1 + 10/100) +
        annualContribution sampleInvestment) ∧
    (projectScenario sampleInvestment 10 2).getD 1 0 =
      round2 (rawBalance (startingBalance sampleInvestment) (10/100)
          (annualContribution sampleInvestment) 1 * (1 + 10/100) +
        annualContribution sampleInvestment) :=
  ⟨spec_C2.1 monthlyInvestment rfl, spec_C2.2.1 yearlyInvestment rfl,
    spec_C2.2.2.1 sampleInvestment rfl,
    spec_C2.2.2.2.1 monthlyInvestment (by simp [monthlyInvestment]),
    spec_C2.2.2.2.2.1 sampleInvestment 10 2 0 (by norm_num),
    spec_C2.2.2.2.2.1 sampleInvestment 10 2 1 (by norm_num)⟩

/-- Fixture: a payload reporting no historical signal at all. -/
def noSignalPayload : ParsedAssumption :=
  { expectedAnnualReturnPct := 10, conservativeAnnualReturnPct := 5,
    aggressiveAnnualReturnPct := 12, confidence := .low, rationale := "" }

/-- Fixture: a payload whose only historical signal is a 1-year return. -/
def oneYearPayload : ParsedAssumption :=
  { expectedAnnualReturnPct := 10, conservativeAnnualReturnPct := 5,
    aggressiveAnnualReturnPct := 12, oneYearReturnPct := some (3/2),
    confidence := .low, rationale := "" }

/-- Witness for C3: the no-anchor passthrough on a signal-free payload, the
blend formula and mean characterization at anchor 7, the two-signal mean,
and the 0.6-discounted 1-year signal membership, all at concrete payloads. -/
theorem spec_C3_witness :
    blendedExpected noSignalPayload =
      sanitizeRate noSignalPayload.expectedAnnualReturnPct ∧
    blendedExpected blendPayload =
      sanitizeRate (sanitizeRate blendPayload.expectedAnnualReturnPct * (55/100) +
        7 * (45/100)) ∧
    (historicalSignals blendPayload ≠ [] ∧
      7 = (historicalSignals blendPayload).sum / (historicalSignals blendPayload).length) ∧
    historyAnchor blendPayload = some ((8 + 6) / 2) ∧
    (3/2) * (6/10) ∈ historicalSignals oneYearPayload := by
  have hnone : historyAnchor noSignalPayload = none := by
    simp [historyAnchor, historicalSignals, average, noSignalPayload,
      List.filterMap_cons, List.filterMap_nil]
  have hanchor : historyAnchor blendPayload = some 7 := by
    norm_num [historyAnchor, historicalSignals, average, blendPayload,
      List.filterMap_cons, List.filterMap_nil]
    exact fun h => absurd h (by simp)
  exact ⟨spec_C3.2.1 noSignalPayload hnone,
    spec_C3.2.2.1 blendPayload 7 hanchor,
    spec_C3.2.2.2.1 blendPayload 7 hanchor,
    spec_C3.2.2.2.2.1 blendPayload 8 6 rfl rfl rfl rfl,
    spec_C3.2.2.2.2.2.1 oneYearPayload (3/2) rfl⟩

/-- Fixture: the forecast response produced for `portfolioRequest`. -/
def respC6 : ForecastResponse :=
  { generatedAt := "2026-01-01T00:00:00.000Z"
    currency := "INR"
    assumptions := portfolioAssumptions
    projections := [projectOne invA assumpA 1, projectOne invB assumpB 1]
    totalProjection := totalProjectionOf 1
      [projectOne invA assumpA 1, projectOne invB assumpB 1] }

/-- Witness for C6: the aggregation characterization instantiated at the
concrete two-investment forecast for year 1. -/
theorem spec_C6_witness :
    respC6.totalProjection.getD 0 ⟨0, 0, 0, 0⟩ = ⟨0 + 1,
      round2 ((respC6.projections.map
        (fun p => (p.yearly.getD 0 ⟨0, 0, 0, 0⟩).conservativeValue)).sum),
      round2 ((respC6.projections.map
        (fun p => (p.yearly.getD 0 ⟨0, 0, 0, 0⟩).expectedValue)).sum),
      round2 ((respC6.projections.map
        (fun p => (p.yearly.getD 0 ⟨0, 0, 0, 0⟩).aggressiveValue)).sum)⟩ := by
  have hfA : List.find? (fun item => item.investmentId = invA.id)
      [assumpA, assumpB] = some assumpA := by
    simp [invA, assumpA]
  have hfB : List.find? (fun item => item.investmentId = invB.id)
      [assumpA, assumpB] = some assumpB := by
    simp [invB, assumpA, assumpB]
  have hok : buildForecast "2026-01-01T00:00:00.000Z" portfolioRequest
      portfolioAssumptions = .ok respC6 := by
    simp only [buildForecast, portfolioRequest, portfolioAssumptions, projectAll,
      hfA, hfB]
    rfl
  exact spec_C6.1 "2026-01-01T00:00:00.000Z" portfolioRequest portfolioAssumptions
    respC6 0 hok (by norm_num [portfolioRequest])

end WealthForecast
